import Mathlib

/-!
Shallow embedding of the selective-materialization predicate column of
src/be/src/vec/columns/predicate_column.h (class PredicateColumnType, a
template over the stored representation T).

The container PaddedPODArray is modelled as a Lean List of RawVal values.
Byte buffers handed in by the storage layer (char pointers) are modelled as
List Nat with one entry per byte; external memory referenced by string
descriptors is modelled as a function from addresses to bytes.  Machine
integers are Nat or Int with explicit reductions modulo 2 ^ w where the code
truncates; in particular the uint16 selection indices of filter_by_selector
are reduced modulo 65536 at the point where the code reads them.
-/

/-- Compile-time template parameter T of PredicateColumnType, one tag per
representation named in the dispatch of filter_by_selector.  The tag
tunsupported stands for every other instantiation of the template, which
falls through to the final branch of the dispatch. -/
inductive PredT where
  | tstring
  | tdecimal
  | tint8
  | tint16
  | tint32
  | tint64
  | tfloat32
  | tfloat64
  | tuint64
  | tuint24
  | tint128
  | tbool
  | tunsupported
deriving DecidableEq

/-- One element of the container.  num covers the plain fixed-width scalars
(signed integers as Int; floats, unsigned integers and the bool byte by
their nonnegative bit pattern), str is a StringValue descriptor (pointer and
length into an externally owned buffer), dec is a decimal12_t (integer and
fraction fields), date is a uint24_t given by its three bytes in
little-endian order. -/
inductive RawVal where
  | num (v : Int)
  | str (ptr len : Nat)
  | dec (integer fraction : Int)
  | date (b0 b1 b2 : Nat)
deriving DecidableEq

/-- Element produced by reading the backing array out of bounds: the C++
code performs no bounds check, and the model makes the read total with this
default. -/
def junkRaw : RawVal := RawVal.num 0

/-- One row of the destination column after materialization: copied string
bytes, a DecimalV2Value, a plain numeric value, a decoded datetime, or a
decoded calendar date. -/
inductive Cell where
  | cbytes (bs : List Nat)
  | cdec (v : Int)
  | cnum (v : Int)
  | cdt (datePart timePart : Nat)
  | cdate (y m d : Nat)
deriving DecidableEq

/-- doris Status, as far as this file needs it. -/
inductive Status where
  | ok
  | notSupported (msg : String)
deriving DecidableEq

/-- sizeof(T) in bytes for each representation tag (StringValue is a pointer
plus a length, decimal12_t is an int64 plus an int32, uint24_t is three
bytes).  The width of the anonymous unsupported tag is arbitrary. -/
def width : PredT → Nat
  | .tstring => 16
  | .tdecimal => 12
  | .tint8 => 1
  | .tint16 => 2
  | .tint32 => 4
  | .tint64 => 8
  | .tfloat32 => 4
  | .tfloat64 => 8
  | .tuint64 => 8
  | .tuint24 => 3
  | .tint128 => 16
  | .tbool => 1
  | .tunsupported => 1

/-- Little-endian byte decoding: byte 0 is least significant.  Each entry is
reduced modulo 256, matching a read through an unsigned char pointer. -/
def leDecode : List Nat → Nat
  | [] => 0
  | b :: bs => b % 256 + 256 * leDecode bs

/-- Little-endian encoding of a natural number into a given number of
bytes. -/
def encodeLE : Nat → Nat → List Nat
  | 0, _ => []
  | w + 1, n => n % 256 :: encodeLE w (n / 256)

/-- Reinterpret an unsigned w-bit pattern as a twos-complement signed
integer, as reading bytes back through int64_t or int32_t does. -/
def toSigned (w : Nat) (v : Nat) : Int :=
  if v < 2 ^ (w - 1) then (v : Int) else (v : Int) - 2 ^ w

/-- The unsigned w-bit pattern of a signed integer (twos complement). -/
def ofSigned (w : Nat) (i : Int) : Nat := (i % (2 ^ w : Int)).toNat

/-- Read len bytes of external memory starting at ptr (page or dictionary
buffers referenced by string descriptors). -/
def readMem (mem : Nat → Nat) (ptr len : Nat) : List Nat :=
  (List.range len).map (fun i => mem (ptr + i) % 256)

/-- Modelled from the spec: the decode direction of the domain date codec
(VecDateTimeValue.from_olap_date, whose code is not part of this repository
slice).  An olap date packs year, month, day as year * 512 + month * 32 +
day; decoding splits the packed day value back into the calendar triple. -/
def fromOlapDate (v : Nat) : Nat × Nat × Nat := (v / 512, v / 32 % 16, v % 32)

/-- Modelled from the spec: the encode direction of the domain date codec,
used to state encode-then-decode round trips. -/
def toOlapDate (y m d : Nat) : Nat := y * 512 + m * 32 + d

/-- Modelled from the spec: the domain datetime codec (the VecDateTimeValue
constructor taking an 8-byte packed integer, whose code is not part of this
repository slice).  The packed integer is date * 1000000 + time; the model
keeps the two parts. -/
def datetimeDecode (v : Nat) : Nat × Nat := (v / 1000000, v % 1000000)

/-- Modelled from the spec: DecimalV2Value(integer, fraction), whose code is
not part of this repository slice, stores the fixed-point value
integer * 10 ^ 9 + fraction at the domain scale of nine fractional decimal
digits. -/
def decimalV2Value (integer fraction : Int) : Int := integer * 1000000000 + fraction

/-- The rational number denoted by a DecimalV2Value under the domain
scale. -/
def decimalToRat (v : Int) : ℚ := (v : ℚ) / 1000000000

/-- get_date_at (predicate_column.h lines 47 to 57): reassemble the three
bytes of a uint24_t value into a uint64 day value, byte 2 most significant,
byte 0 least significant.  The shift-and-or structure follows the source. -/
def get_date_at (rv : RawVal) : Nat :=
  match rv with
  | .date b0 b1 b2 => ((b2 <<< 8) ||| b1) <<< 8 ||| b0
  | _ => 0

/-- Loop body of insert_string_to_res_column (lines 75 to 81): reinterpret
the element as a StringValue and copy the referenced bytes into the
destination string column. -/
def strConv (mem : Nat → Nat) : RawVal → Cell
  | .str p l => .cbytes (readMem mem p l)
  | _ => .cbytes []

/-- Loop body of insert_decimal_to_res_column (lines 83 to 90): reinterpret
the element as a decimal12_t and construct DecimalV2Value(integer,
fraction). -/
def decConv : RawVal → Cell
  | .dec i f => .cdec (decimalV2Value i f)
  | _ => .cdec 0

/-- Loop body of insert_default_value_res_column (lines 92 to 103): the
identity copy y[i] = T(data[sel[i]]) with Y = T. -/
def numConv : RawVal → Cell
  | .num v => .cnum v
  | _ => .cnum 0

/-- Loop body of insert_datetime_to_res_column (lines 67 to 73): decode the
8-byte packed integer through the domain datetime codec. -/
def dtConv : RawVal → Cell
  | .num v => .cdt (datetimeDecode v.toNat).1 (datetimeDecode v.toNat).2
  | _ => .cdt 0 0

/-- Loop body of insert_date_to_res_column (lines 59 to 65): get_date_at,
then from_olap_date through the domain date codec. -/
def dateConv (rv : RawVal) : Cell :=
  .cdate (fromOlapDate (get_date_at rv)).1 (fromOlapDate (get_date_at rv)).2.1
    (fromOlapDate (get_date_at rv)).2.2

/-- Loop body of insert_byte_to_res_column (lines 105 to 111): insert the
single byte of the element into the generic destination column. -/
def byteConv : RawVal → Cell
  | .num v => .cnum (v % 256)
  | _ => .cnum 0

/-- A selection index as the code reads it through the uint16_t pointer
parameter of filter_by_selector: values are reduced modulo 2 ^ 16. -/
def selIdx (s : Nat) : Nat := s % 65536

/-- insert_string_to_res_column (lines 75 to 81): one insert_data call per
selected row, in selection order. -/
def insert_string_to_res_column (mem : Nat → Nat) (data : List RawVal)
    (sel : List Nat) (res : List Cell) : List Cell :=
  res ++ sel.map (fun s => strConv mem (data.getD (selIdx s) junkRaw))

/-- insert_decimal_to_res_column (lines 83 to 90): one DecimalV2Value per
selected row, in selection order. -/
def insert_decimal_to_res_column (data : List RawVal) (sel : List Nat)
    (res : List Cell) : List Cell :=
  res ++ sel.map (fun s => decConv (data.getD (selIdx s) junkRaw))

/-- insert_default_value_res_column (lines 92 to 103): reserve sel_size
slots and write y[i] = T(data[sel[i]]) one past the current end pointer,
then advance the end pointer by sel_size.  The DCHECK requires the
destination to start empty; the writes extend the destination by exactly
sel_size elements, modelled as an append. -/
def insert_default_value_res_column (data : List RawVal) (sel : List Nat)
    (res : List Cell) : List Cell :=
  res ++ sel.map (fun s => numConv (data.getD (selIdx s) junkRaw))

/-- insert_datetime_to_res_column (lines 67 to 73): one decoded datetime per
selected row, in selection order. -/
def insert_datetime_to_res_column (data : List RawVal) (sel : List Nat)
    (res : List Cell) : List Cell :=
  res ++ sel.map (fun s => dtConv (data.getD (selIdx s) junkRaw))

/-- insert_date_to_res_column (lines 59 to 65): one decoded date per
selected row, in selection order. -/
def insert_date_to_res_column (data : List RawVal) (sel : List Nat)
    (res : List Cell) : List Cell :=
  res ++ sel.map (fun s => dateConv (data.getD (selIdx s) junkRaw))

/-- insert_byte_to_res_column (lines 105 to 111): one byte per selected row,
in selection order. -/
def insert_byte_to_res_column (data : List RawVal) (sel : List Nat)
    (res : List Cell) : List Cell :=
  res ++ sel.map (fun s => byteConv (data.getD (selIdx s) junkRaw))

/-- filter_by_selector (lines 353 to 382): compile-time dispatch on T into
the per-representation materialization loop.  Any T outside the listed
representations reaches the final branch and returns Status::NotSupported
without touching the destination; every listed branch returns Status::OK. -/
def filter_by_selector (t : PredT) (mem : Nat → Nat) (data : List RawVal)
    (sel : List Nat) (res : List Cell) : Status × List Cell :=
  match t with
  | .tstring => (.ok, insert_string_to_res_column mem data sel res)
  | .tdecimal => (.ok, insert_decimal_to_res_column data sel res)
  | .tint8 => (.ok, insert_default_value_res_column data sel res)
  | .tint16 => (.ok, insert_default_value_res_column data sel res)
  | .tint32 => (.ok, insert_default_value_res_column data sel res)
  | .tint64 => (.ok, insert_default_value_res_column data sel res)
  | .tfloat32 => (.ok, insert_default_value_res_column data sel res)
  | .tfloat64 => (.ok, insert_default_value_res_column data sel res)
  | .tuint64 => (.ok, insert_datetime_to_res_column data sel res)
  | .tuint24 => (.ok, insert_date_to_res_column data sel res)
  | .tint128 => (.ok, insert_default_value_res_column data sel res)
  | .tbool => (.ok, insert_byte_to_res_column data sel res)
  | .tunsupported =>
      (.notSupported "not supported output type in predicate_column", res)

/-- The per-representation decoding that filter_by_selector applies to each
selected element, collected in one place for stating properties. -/
def decode1 (t : PredT) (mem : Nat → Nat) (rv : RawVal) : Cell :=
  match t with
  | .tstring => strConv mem rv
  | .tdecimal => decConv rv
  | .tuint64 => dtConv rv
  | .tuint24 => dateConv rv
  | .tbool => byteConv rv
  | .tunsupported => Cell.cnum 0
  | _ => numConv rv

/-- Split off num consecutive chunks of w bytes from a byte block, the way
the element loops of the batch insertion paths address it. -/
def takeChunks (w : Nat) : Nat → List Nat → List (List Nat)
  | 0, _ => []
  | n + 1, src => src.take w :: takeChunks w n (src.drop w)

/-- insert_decimal_value (lines 171 to 176): split the input bytes into the
8-byte little-endian int64 integer part followed by the 4-byte little-endian
int32 fraction part of a decimal12_t. -/
def insert_decimal_value (bs : List Nat) : Int × Int :=
  (toSigned 64 (leDecode (bs.take 8)), toSigned 32 (leDecode ((bs.drop 8).take 4)))

/-- Reinterpretation of one sizeof(T) byte chunk as a T value, the effect of
reading through a (T*) cast of the input byte pointer. -/
def bytesToRaw (t : PredT) (chunk : List Nat) : RawVal :=
  match t with
  | .tstring =>
      .str (leDecode (chunk.take 8)) (leDecode ((chunk.drop 8).take 8))
  | .tdecimal =>
      .dec (insert_decimal_value chunk).1 (insert_decimal_value chunk).2
  | .tint8 => .num (toSigned 8 (leDecode (chunk.take 1)))
  | .tint16 => .num (toSigned 16 (leDecode (chunk.take 2)))
  | .tint32 => .num (toSigned 32 (leDecode (chunk.take 4)))
  | .tint64 => .num (toSigned 64 (leDecode (chunk.take 8)))
  | .tfloat32 => .num (Int.ofNat (leDecode (chunk.take 4)))
  | .tfloat64 => .num (Int.ofNat (leDecode (chunk.take 8)))
  | .tuint64 => .num (Int.ofNat (leDecode (chunk.take 8)))
  | .tuint24 =>
      .date (chunk.getD 0 0 % 256) (chunk.getD 1 0 % 256) (chunk.getD 2 0 % 256)
  | .tint128 => .num (toSigned 128 (leDecode (chunk.take 16)))
  | .tbool => .num (Int.ofNat (leDecode (chunk.take 1)))
  | .tunsupported => .num (Int.ofNat (leDecode (chunk.take 1)))

/-- insert_many_default_type (lines 114 to 122): the element-wise assignment
loop res_val_ptr[i] = input_val_ptr[i], appending num T elements read from
the input byte block. -/
def insert_many_default_type (t : PredT) (data : List RawVal) (src : List Nat)
    (num : Nat) : List RawVal :=
  data ++ (takeChunks (width t) num src).map (bytesToRaw t)

/-- insert_many_in_copy_way (lines 124 to 129): one memcpy of
num * sizeof(T) bytes onto the end of the container, i.e. num T elements
taken from exactly the first num * sizeof(T) input bytes. -/
def insert_many_in_copy_way (t : PredT) (data : List RawVal) (src : List Nat)
    (num : Nat) : List RawVal :=
  data ++ (takeChunks (width t) num (src.take (num * width t))).map (bytesToRaw t)

/-- Byte-level view of the assignment loop of insert_many_default_type: the
appended bytes are the num element chunks, written element by element. -/
def insert_many_default_type_bytes (w : Nat) (contBytes src : List Nat)
    (num : Nat) : List Nat :=
  contBytes ++ (takeChunks w num src).flatten

/-- Byte-level view of the memcpy of insert_many_in_copy_way: the appended
bytes are the first num * w input bytes in one block. -/
def insert_many_in_copy_way_bytes (w : Nat) (contBytes src : List Nat)
    (num : Nat) : List Nat :=
  contBytes ++ src.take (num * w)

/-- insert_many_fix_len_data (lines 203 to 213): decimal12_t and Int128 take
the raw copy path, StringValue is unreachable and inserts nothing, every
other T takes the assignment loop. -/
def insert_many_fix_len_data (t : PredT) (data : List RawVal) (src : List Nat)
    (num : Nat) : List RawVal :=
  match t with
  | .tdecimal => insert_many_in_copy_way .tdecimal data src num
  | .tint128 => insert_many_in_copy_way .tint128 data src num
  | .tstring => data
  | _ => insert_many_default_type t data src num

/-- insert_many_dict_data (lines 215 to 225), for T = StringValue: for each
of num consecutive logical rows starting at start_index, resolve the int32
codeword through the offset and length tables and append a descriptor
pointing into the dictionary buffer at dict_base + offset.  The codeword is
used as an array index (nonnegative in any defined execution; negative
values are mapped through Int.toNat). -/
def insert_many_dict_data (data : List RawVal) (data_array : List Int)
    (start_index : Nat) (start_offset_array len_array : List Nat)
    (dict_base : Nat) (num : Nat) : List RawVal :=
  data ++ (List.range num).map (fun i =>
    RawVal.str
      (dict_base + start_offset_array.getD ((data_array.getD (start_index + i) 0).toNat) 0)
      (len_array.getD ((data_array.getD (start_index + i) 0).toNat) 0))

/-- Well-formedness of a raw value for a representation tag: the constructor
matches the tag and the payload fits the machine width of the
representation. -/
def wfRaw : PredT → RawVal → Bool
  | .tint8, .num i => decide (-128 ≤ i ∧ i < 128)
  | .tint16, .num i => decide (-32768 ≤ i ∧ i < 32768)
  | .tint32, .num i => decide (-(2 ^ 31) ≤ i ∧ i < 2 ^ 31)
  | .tint64, .num i => decide (-(2 ^ 63) ≤ i ∧ i < 2 ^ 63)
  | .tint128, .num i => decide (-(2 ^ 127) ≤ i ∧ i < 2 ^ 127)
  | .tfloat32, .num i => decide (0 ≤ i ∧ i < 2 ^ 32)
  | .tfloat64, .num i => decide (0 ≤ i ∧ i < 2 ^ 64)
  | .tuint64, .num i => decide (0 ≤ i ∧ i < 2 ^ 64)
  | .tbool, .num i => decide (0 ≤ i ∧ i < 256)
  | .tuint24, .date b0 b1 b2 => decide (b0 < 256 ∧ b1 < 256 ∧ b2 < 256)
  | .tdecimal, .dec i f =>
      decide ((-(2 ^ 63) ≤ i ∧ i < 2 ^ 63) ∧ -(2 ^ 31) ≤ f ∧ f < 2 ^ 31)
  | .tstring, .str _ _ => true
  | _, _ => false

/-- The on-disk byte block of one well-formed raw value of representation t:
the inverse of bytesToRaw, used to state round-trip properties of the batch
insertion paths. -/
def rawEncode (t : PredT) (v : RawVal) : List Nat :=
  match t, v with
  | .tint8, .num i => encodeLE 1 (ofSigned 8 i)
  | .tint16, .num i => encodeLE 2 (ofSigned 16 i)
  | .tint32, .num i => encodeLE 4 (ofSigned 32 i)
  | .tint64, .num i => encodeLE 8 (ofSigned 64 i)
  | .tint128, .num i => encodeLE 16 (ofSigned 128 i)
  | .tfloat32, .num i => encodeLE 4 i.toNat
  | .tfloat64, .num i => encodeLE 8 i.toNat
  | .tuint64, .num i => encodeLE 8 i.toNat
  | .tbool, .num i => encodeLE 1 i.toNat
  | .tuint24, .date b0 b1 b2 => [b0, b1, b2]
  | .tdecimal, .dec i f => encodeLE 8 (ofSigned 64 i) ++ encodeLE 4 (ofSigned 32 f)
  | t, _ => List.replicate (width t) 0

/-- Concrete dictionary buffer used by the dictionary-decode example. -/
def dictBufExample : List Nat := [10, 11, 12, 13, 14, 20, 21, 22, 23, 30, 31, 32]

/-- External memory holding the example dictionary buffer at address 0. -/
def memExample : Nat → Nat := fun a => dictBufExample.getD a 0

/-!
Guarded generic operations (lines 142 to 351 and 385 to 391).  Every member
of the generic column contract that the fast path does not need is
implemented as LOG(FATAL) with a message naming the operation; LOG(FATAL)
terminates the process, so the C++ member never returns.  Each member is
modelled as a function into Except String Unit whose only result is the
error value carrying the logged message: the ok constructor of the result
type is never produced.  Argument types irrelevant to the failure are
elided to Nat or simple lists, and the member name is kept.
-/

/-- Guarded get_data_at (line 142). -/
def get_data_at (n : Nat) : Except String Unit :=
  let _ := n
  .error "get_data_at not supported in PredicateColumnType"

/-- Guarded insert_from (line 146). -/
def insert_from (src n : Nat) : Except String Unit :=
  let _ := (src, n)
  .error "insert_from not supported in PredicateColumnType"

/-- Guarded insert_range_from (line 150). -/
def insert_range_from (src start length : Nat) : Except String Unit :=
  let _ := (src, start, length)
  .error "insert_range_from not supported in PredicateColumnType"

/-- Guarded insert_indices_from (line 154). -/
def insert_indices_from (src : Nat) (indices : List Int) : Except String Unit :=
  let _ := (src, indices)
  .error "insert_indices_from not supported in PredicateColumnType"

/-- Guarded pop_back (line 158). -/
def pop_back (n : Nat) : Except String Unit :=
  let _ := n
  .error "pop_back not supported in PredicateColumnType"

/-- Guarded update_hash_with_value (line 162). -/
def update_hash_with_value (n hash : Nat) : Except String Unit :=
  let _ := (n, hash)
  .error "update_hash_with_value not supported in PredicateColumnType"

/-- Guarded get_permutation (line 251). -/
def get_permutation (reverse : Bool) (limit : Nat) (nanHint : Int) :
    Except String Unit :=
  let _ := (reverse, limit, nanHint)
  .error "get_permutation not supported in PredicateColumnType"

/-- Guarded get_family_name (line 260). -/
def get_family_name : Except String Unit :=
  .error "get_family_name not supported in PredicateColumnType"

/-- Guarded clone_resized (line 264). -/
def clone_resized (size : Nat) : Except String Unit :=
  let _ := size
  .error "clone_resized not supported in PredicateColumnType"

/-- Guarded generic insert of a Field (line 268). -/
def insert (x : Nat) : Except String Unit :=
  let _ := x
  .error "insert not supported in PredicateColumnType"

/-- Guarded operator[] (line 272); renamed, square brackets cannot appear in
a Lean identifier. -/
def opIndex (n : Nat) : Except String Unit :=
  let _ := n
  .error "operator[] not supported in PredicateColumnType"

/-- Guarded get into a Field reference (line 276). -/
def get (n res : Nat) : Except String Unit :=
  let _ := (n, res)
  .error "get field not supported in PredicateColumnType"

/-- Guarded get64 (line 280); the source message carries the
PredicateColumnTyped typo. -/
def get64 (n : Nat) : Except String Unit :=
  let _ := n
  .error "get field not supported in PredicateColumnTyped"

/-- Guarded get_float64 (line 284). -/
def get_float64 (n : Nat) : Except String Unit :=
  let _ := n
  .error "get field not supported in PredicateColumnType"

/-- Guarded get_uint (line 288). -/
def get_uint (n : Nat) : Except String Unit :=
  let _ := n
  .error "get field not supported in PredicateColumnType"

/-- Guarded get_bool (line 292). -/
def get_bool (n : Nat) : Except String Unit :=
  let _ := n
  .error "get field not supported in PredicateColumnType"

/-- Guarded get_int (line 296). -/
def get_int (n : Nat) : Except String Unit :=
  let _ := n
  .error "get field not supported in PredicateColumnType"

/-- Guarded serialize_value_into_arena (line 301). -/
def serialize_value_into_arena (n arena beginPos : Nat) : Except String Unit :=
  let _ := (n, arena, beginPos)
  .error "serialize_value_into_arena not supported in PredicateColumnType"

/-- Guarded deserialize_and_insert_from_arena (line 306). -/
def deserialize_and_insert_from_arena (pos : Nat) : Except String Unit :=
  let _ := pos
  .error "deserialize_and_insert_from_arena not supported in PredicateColumnType"

/-- Guarded compare_at (line 310). -/
def compare_at (n m rhs : Nat) (nanHint : Int) : Except String Unit :=
  let _ := (n, m, rhs, nanHint)
  .error "compare_at not supported in PredicateColumnType"

/-- Guarded get_extremes (line 315). -/
def get_extremes (lo hi : Nat) : Except String Unit :=
  let _ := (lo, hi)
  .error "get_extremes not supported in PredicateColumnType"

/-- Guarded get_raw_data (line 324). -/
def get_raw_data : Except String Unit :=
  .error "get_raw_data not supported in PredicateColumnType"

/-- Guarded structure_equals (line 328). -/
def structure_equals (rhs : Nat) : Except String Unit :=
  let _ := rhs
  .error "structure_equals not supported in PredicateColumnType"

/-- Guarded generic filter (line 332). -/
def filter (filt : List Bool) (resultSizeHint : Int) : Except String Unit :=
  let _ := (filt, resultSizeHint)
  .error "filter not supported in PredicateColumnType"

/-- Guarded permute (line 336). -/
def permute (perm : List Nat) (limit : Nat) : Except String Unit :=
  let _ := (perm, limit)
  .error "permute not supported in PredicateColumnType"

/-- Guarded replicate (line 344). -/
def replicate (offsets : List Nat) : Except String Unit :=
  let _ := offsets
  .error "replicate not supported in PredicateColumnType"

/-- Guarded scatter (line 348). -/
def scatter (numColumns : Nat) (selector : List Nat) : Except String Unit :=
  let _ := (numColumns, selector)
  .error "scatter not supported in PredicateColumnType"

/-- Guarded replace_column_data (line 385). -/
def replace_column_data (rhs row selfRow : Nat) : Except String Unit :=
  let _ := (rhs, row, selfRow)
  .error "should not call replace_column_data in predicate column"

/-- Guarded replace_column_data_default (line 389). -/
def replace_column_data_default (selfRow : Nat) : Except String Unit :=
  let _ := selfRow
  .error "should not call replace_column_data_default in predicate column"

theorem encodeLE_length (w n : Nat) : (encodeLE w n).length = w := by
  induction w generalizing n with
  | zero => rfl
  | succ w ih => simp [encodeLE, ih]

theorem leDecode_encodeLE (w n : Nat) (h : n < 256 ^ w) :
    leDecode (encodeLE w n) = n := by
  induction w generalizing n with
  | zero =>
    have : n = 0 := by simpa using h
    simp [this, encodeLE, leDecode]
  | succ w ih =>
    have hdiv : n / 256 < 256 ^ w := by
      rw [Nat.div_lt_iff_lt_mul (by norm_num)]
      calc n < 256 ^ (w + 1) := h
        _ = 256 ^ w * 256 := by ring
    simp only [encodeLE, leDecode, ih (n / 256) hdiv]
    omega

theorem leDecode_take_encodeLE (bw n : Nat) (h : n < 256 ^ bw) :
    leDecode ((encodeLE bw n).take bw) = n := by
  rw [List.take_of_length_le (by rw [encodeLE_length]), leDecode_encodeLE bw n h]

theorem ofSigned_lt (w : Nat) (i : Int) : ofSigned w i < 2 ^ w := by
  have hpos : (0 : Int) < 2 ^ w := by positivity
  have h1 : 0 ≤ i % (2 ^ w : Int) := Int.emod_nonneg i (ne_of_gt hpos)
  have h2 : i % (2 ^ w : Int) < 2 ^ w := Int.emod_lt_of_pos i hpos
  rw [ofSigned]
  zify
  rw [Int.toNat_of_nonneg h1]
  exact h2

theorem toSigned_ofSigned (w : Nat) (hw : 0 < w) (i : Int)
    (h1 : -(2 ^ (w - 1)) ≤ i) (h2 : i < 2 ^ (w - 1)) :
    toSigned w (ofSigned w i) = i := by
  have hsplit : (2 : Int) ^ w = 2 ^ (w - 1) * 2 := by
    rw [← pow_succ]
    congr 1
    omega
  have hhalf : (0 : Int) < 2 ^ (w - 1) := by positivity
  by_cases hi : 0 ≤ i
  · have hlt : i < (2 : Int) ^ w := by
      calc i < 2 ^ (w - 1) := h2
        _ ≤ 2 ^ w := by nlinarith
    have ht : i.toNat < 2 ^ (w - 1) := by
      zify
      rw [Int.toNat_of_nonneg hi]
      exact h2
    rw [ofSigned, Int.emod_eq_of_lt hi hlt, toSigned, if_pos ht,
      Int.toNat_of_nonneg hi]
  · push_neg at hi
    have hge : -((2 : Int) ^ w) ≤ i := by nlinarith
    have hmod : i % ((2 : Int) ^ w) = i + 2 ^ w := by
      have hself : (i + 2 ^ w * 1) % ((2 : Int) ^ w) = i % 2 ^ w :=
        Int.add_mul_emod_self_left i (2 ^ w) 1
      rw [mul_one] at hself
      rw [← hself]
      exact Int.emod_eq_of_lt (by linarith) (by linarith)
    have hnn : (0 : Int) ≤ i + 2 ^ w := by linarith
    have hcond : ¬ ((i + 2 ^ w).toNat < 2 ^ (w - 1)) := by
      push_neg
      zify
      rw [Int.toNat_of_nonneg hnn]
      nlinarith
    rw [ofSigned, hmod, toSigned, if_neg hcond, Int.toNat_of_nonneg hnn]
    ring

theorem shiftLeft_lor_eq (a b : Nat) (hb : b < 256) :
    a <<< 8 ||| b = a * 256 + b := by
  have h := Nat.mul_add_lt_is_or (show b < 2 ^ 8 by omega) a
  rw [Nat.shiftLeft_eq]
  calc a * 2 ^ 8 ||| b = 2 ^ 8 * a ||| b := by rw [mul_comm]
    _ = 2 ^ 8 * a + b := h.symm
    _ = a * 256 + b := by ring

theorem get_date_at_eq (b0 b1 b2 : Nat) (h0 : b0 < 256) (h1 : b1 < 256) :
    get_date_at (RawVal.date b0 b1 b2) = b0 + 256 * b1 + 65536 * b2 := by
  show ((b2 <<< 8) ||| b1) <<< 8 ||| b0 = b0 + 256 * b1 + 65536 * b2
  rw [shiftLeft_lor_eq b2 b1 h1, shiftLeft_lor_eq (b2 * 256 + b1) b0 h0]
  ring

theorem takeChunks_take (w n : Nat) (src : List Nat) :
    takeChunks w n (src.take (n * w)) = takeChunks w n src := by
  induction n generalizing src with
  | zero => rfl
  | succ n ih =>
    simp only [takeChunks]
    congr 1
    · rw [List.take_take]
      congr 1
      have : w ≤ (n + 1) * w := by nlinarith
      omega
    · rw [List.drop_take]
      have harith : (n + 1) * w - w = n * w := by ring_nf; omega
      rw [harith, ih]

theorem takeChunks_flatten (w n : Nat) (src : List Nat) :
    (takeChunks w n src).flatten = src.take (n * w) := by
  induction n generalizing src with
  | zero => simp [takeChunks]
  | succ n ih =>
    simp only [takeChunks, List.flatten_cons, ih]
    rw [← List.take_add]
    congr 1
    ring

theorem takeChunks_flatten_chunks (w : Nat) (ls : List (List Nat))
    (h : ∀ l ∈ ls, l.length = w) :
    takeChunks w ls.length ls.flatten = ls := by
  induction ls with
  | nil => rfl
  | cons l ls ih =>
    have hl : l.length = w := h l (List.mem_cons_self l ls)
    subst hl
    simp only [List.length_cons, List.flatten_cons, takeChunks]
    congr 1
    · rw [List.take_left]
    · rw [List.drop_left]
      exact ih (fun x hx => h x (List.mem_cons_of_mem l hx))

theorem range_map_mod_getD {α β : Type} (vs : List α) (d : α) (f : α → β)
    (h : vs.length ≤ 65536) :
    (List.range vs.length).map (fun s => f (vs.getD (s % 65536) d)) = vs.map f := by
  apply List.ext_getElem
  · simp
  · intro i hi1 hi2
    have hiv : i < vs.length := by simpa using hi2
    have hmod : i % 65536 = i := Nat.mod_eq_of_lt (lt_of_lt_of_le hiv h)
    simp only [List.getElem_map, List.getElem_range, hmod,
      List.getD_eq_getElem vs d hiv]

theorem filter_by_selector_spec (t : PredT) (ht : t ≠ PredT.tunsupported)
    (mem : Nat → Nat) (data : List RawVal) (sel : List Nat) (res : List Cell) :
    filter_by_selector t mem data sel res
      = (Status.ok,
          res ++ sel.map (fun s => decode1 t mem (data.getD (selIdx s) junkRaw))) := by
  cases t <;>
    simp_all [filter_by_selector, decode1, insert_string_to_res_column,
      insert_decimal_to_res_column, insert_default_value_res_column,
      insert_datetime_to_res_column, insert_date_to_res_column,
      insert_byte_to_res_column]

theorem take_encodeLE (bw n : Nat) : (encodeLE bw n).take bw = encodeLE bw n :=
  List.take_of_length_le (by rw [encodeLE_length])

theorem toSigned_leDecode_encodeLE (bits bw : Nat) (hb : bits = 8 * bw)
    (hbw : 0 < bw) (i : Int) (h1 : -(2 ^ (bits - 1)) ≤ i)
    (h2 : i < 2 ^ (bits - 1)) :
    toSigned bits (leDecode (encodeLE bw (ofSigned bits i))) = i := by
  subst hb
  have hlt : ofSigned (8 * bw) i < 256 ^ bw := by
    have h := ofSigned_lt (8 * bw) i
    have hp : (2 : Nat) ^ (8 * bw) = 256 ^ bw := by
      rw [pow_mul]
      norm_num
    omega
  rw [leDecode_encodeLE bw _ hlt]
  exact toSigned_ofSigned (8 * bw) (by omega) i h1 h2

theorem ofNat_leDecode_encodeLE (bits bw : Nat) (hb : bits = 8 * bw) (i : Int)
    (h0 : 0 ≤ i) (h2 : i < 2 ^ bits) :
    Int.ofNat (leDecode (encodeLE bw i.toNat)) = i := by
  subst hb
  have hp : (2 : Nat) ^ (8 * bw) = 256 ^ bw := by
    rw [pow_mul]
    norm_num
  have h1 : i.toNat < 2 ^ (8 * bw) := by
    zify
    rw [Int.toNat_of_nonneg h0]
    exact_mod_cast h2
  have hlt : i.toNat < 256 ^ bw := by omega
  rw [leDecode_encodeLE bw _ hlt]
  exact Int.toNat_of_nonneg h0

theorem insert_decimal_value_encode (i f : Int) (hi1 : -(2 ^ 63) ≤ i)
    (hi2 : i < 2 ^ 63) (hf1 : -(2 ^ 31) ≤ f) (hf2 : f < 2 ^ 31) :
    insert_decimal_value (encodeLE 8 (ofSigned 64 i) ++ encodeLE 4 (ofSigned 32 f))
      = (i, f) := by
  have h8 : (encodeLE 8 (ofSigned 64 i)).length = 8 := encodeLE_length 8 _
  have htake : (encodeLE 8 (ofSigned 64 i) ++ encodeLE 4 (ofSigned 32 f)).take 8
      = encodeLE 8 (ofSigned 64 i) := by
    rw [← h8]
    exact List.take_left _ _
  have hdrop : (encodeLE 8 (ofSigned 64 i) ++ encodeLE 4 (ofSigned 32 f)).drop 8
      = encodeLE 4 (ofSigned 32 f) := by
    rw [← h8]
    exact List.drop_left _ _
  rw [insert_decimal_value, htake, hdrop, take_encodeLE]
  rw [toSigned_leDecode_encodeLE 64 8 (by norm_num) (by norm_num) i
    (by norm_num; omega) (by norm_num; omega)]
  rw [toSigned_leDecode_encodeLE 32 4 (by norm_num) (by norm_num) f
    (by norm_num; omega) (by norm_num; omega)]

theorem bytesToRaw_rawEncode (t : PredT) (v : RawVal) (ht : t ≠ PredT.tstring)
    (h : wfRaw t v = true) : bytesToRaw t (rawEncode t v) = v := by
  cases t <;> cases v <;>
    first
      | exact absurd rfl ht
      | simp only [wfRaw, decide_eq_true_eq] at h
  all_goals try exact absurd h Bool.false_ne_true
  case tdecimal.dec i f =>
    simp only [rawEncode, bytesToRaw]
    rw [insert_decimal_value_encode i f h.1.1 h.1.2 h.2.1 h.2.2]
  case tint8.num i =>
    simp only [rawEncode, bytesToRaw, take_encodeLE]
    exact congrArg RawVal.num
      (toSigned_leDecode_encodeLE 8 1 (by norm_num) (by norm_num) i
        (by norm_num; omega) (by norm_num; omega))
  case tint16.num i =>
    simp only [rawEncode, bytesToRaw, take_encodeLE]
    exact congrArg RawVal.num
      (toSigned_leDecode_encodeLE 16 2 (by norm_num) (by norm_num) i
        (by norm_num; omega) (by norm_num; omega))
  case tint32.num i =>
    simp only [rawEncode, bytesToRaw, take_encodeLE]
    exact congrArg RawVal.num
      (toSigned_leDecode_encodeLE 32 4 (by norm_num) (by norm_num) i
        (by norm_num; omega) (by norm_num; omega))
  case tint64.num i =>
    simp only [rawEncode, bytesToRaw, take_encodeLE]
    exact congrArg RawVal.num
      (toSigned_leDecode_encodeLE 64 8 (by norm_num) (by norm_num) i
        (by norm_num; omega) (by norm_num; omega))
  case tint128.num i =>
    simp only [rawEncode, bytesToRaw, take_encodeLE]
    exact congrArg RawVal.num
      (toSigned_leDecode_encodeLE 128 16 (by norm_num) (by norm_num) i
        (by norm_num; omega) (by norm_num; omega))
  case tfloat32.num i =>
    simp only [rawEncode, bytesToRaw, take_encodeLE]
    exact congrArg RawVal.num
      (ofNat_leDecode_encodeLE 32 4 (by norm_num) i h.1 (by norm_num; omega))
  case tfloat64.num i =>
    simp only [rawEncode, bytesToRaw, take_encodeLE]
    exact congrArg RawVal.num
      (ofNat_leDecode_encodeLE 64 8 (by norm_num) i h.1 (by norm_num; omega))
  case tuint64.num i =>
    simp only [rawEncode, bytesToRaw, take_encodeLE]
    exact congrArg RawVal.num
      (ofNat_leDecode_encodeLE 64 8 (by norm_num) i h.1 (by norm_num; omega))
  case tbool.num i =>
    simp only [rawEncode, bytesToRaw, take_encodeLE]
    exact congrArg RawVal.num
      (ofNat_leDecode_encodeLE 8 1 (by norm_num) i h.1 (by norm_num; omega))
  case tuint24.date b0 b1 b2 =>
    show RawVal.date (b0 % 256) (b1 % 256) (b2 % 256) = RawVal.date b0 b1 b2
    congr 1 <;> omega

/-- Claim C1: for every container state and every selection list in which
every index is a valid row index, filter_by_selector on a supported pairing
returns success and appends exactly selection.size() decoded values to the
(initially empty) destination, and destination row k equals the decoded
value of container row selection[k]; this holds for arbitrary selection
orders, including non-monotonic permutations, and the empty selection
appends nothing. -/
theorem filter_by_selector_selection_semantics (t : PredT) (mem : Nat → Nat)
    (data : List RawVal) (sel : List Nat) (hsup : t ≠ PredT.tunsupported)
    (hsel : ∀ s ∈ sel, s < data.length ∧ s < 65536) :
    (filter_by_selector t mem data sel []).1 = Status.ok ∧
    (filter_by_selector t mem data sel []).2.length = sel.length ∧
    ∀ k, k < sel.length →
      (filter_by_selector t mem data sel []).2.getD k (Cell.cnum 0)
        = decode1 t mem (data.getD (sel.getD k 0) junkRaw) := by
  rw [filter_by_selector_spec t hsup mem data sel []]
  refine ⟨rfl, by simp, ?_⟩
  intro k hk
  have hk2 : k < (sel.map
      (fun s => decode1 t mem (data.getD (selIdx s) junkRaw))).length := by
    simpa using hk
  simp only [List.nil_append]
  rw [List.getD_eq_getElem _ _ hk2, List.getElem_map]
  have hs := hsel sel[k] (List.getElem_mem hk)
  rw [show selIdx sel[k] = sel[k] from Nat.mod_eq_of_lt hs.2,
    List.getD_eq_getElem sel 0 hk]

/-- Witness for C1 at a concrete non-monotonic selection. -/
theorem filter_by_selector_selection_semantics_witness :
    (filter_by_selector PredT.tint32 (fun _ => 0)
        [RawVal.num 5, RawVal.num 7, RawVal.num 9] [2, 0, 1] []).2.getD 0 (Cell.cnum 0)
      = decode1 PredT.tint32 (fun _ => 0)
          ([RawVal.num 5, RawVal.num 7, RawVal.num 9].getD ([2, 0, 1].getD 0 0) junkRaw) :=
  (filter_by_selector_selection_semantics PredT.tint32 (fun _ => 0)
      [RawVal.num 5, RawVal.num 7, RawVal.num 9] [2, 0, 1] (by decide)
      (by decide)).2.2 0 (by decide)

/-- Claim C3: for every T outside the supported representations of the
dispatch, filter_by_selector returns the typed, recoverable NotSupported
status and leaves the destination untouched (nothing appended); for every
supported T it returns Status.ok. -/
theorem filter_by_selector_status_dispatch (t : PredT) (mem : Nat → Nat)
    (data : List RawVal) (sel : List Nat) (res : List Cell) :
    (t = PredT.tunsupported →
        filter_by_selector t mem data sel res
          = (Status.notSupported "not supported output type in predicate_column",
              res)) ∧
    (t ≠ PredT.tunsupported →
        (filter_by_selector t mem data sel res).1 = Status.ok) := by
  cases t <;>
    first
      | exact ⟨fun h => rfl, fun h => absurd rfl h⟩
      | exact ⟨fun h => by simp_all, fun h => rfl⟩

/-- Witness for C3: the unsupported branch returns the error and appends
nothing, a supported branch returns ok. -/
theorem filter_by_selector_status_dispatch_witness :
    filter_by_selector PredT.tunsupported (fun _ => 0) [] [0] [Cell.cnum 5]
        = (Status.notSupported "not supported output type in predicate_column",
            [Cell.cnum 5]) ∧
    (filter_by_selector PredT.tint8 (fun _ => 0) [] [] []).1 = Status.ok :=
  ⟨(filter_by_selector_status_dispatch PredT.tunsupported (fun _ => 0) [] [0]
      [Cell.cnum 5]).1 rfl,
   (filter_by_selector_status_dispatch PredT.tint8 (fun _ => 0) [] [] []).2
      (by decide)⟩

/-- Claim C9 (counterexample): with a one-element container and the
out-of-bounds selection index 5, filter_by_selector returns Status.ok and
appends the decoded default element: no error status and no abort, refuting
the claim that a selection index at or beyond the container size triggers a
defined failure. -/
theorem filter_by_selector_oob_counterexample :
    (filter_by_selector PredT.tint32 (fun _ => 0) [RawVal.num 7] [5] []).1
        = Status.ok ∧
    (filter_by_selector PredT.tint32 (fun _ => 0) [RawVal.num 7] [5] []).2
        = [Cell.cnum 0] :=
  ⟨rfl, rfl⟩

/-- Claim C9 (amended): filter_by_selector performs no bounds check: for any
selection list, including one with indices at or beyond the container size,
a supported branch still returns success and silently materializes the
decoded default element for every out-of-range index, instead of triggering
a defined failure; bounds are entirely the caller responsibility. -/
theorem filter_by_selector_no_bounds_check (t : PredT) (mem : Nat → Nat)
    (data : List RawVal) (sel : List Nat) (hsup : t ≠ PredT.tunsupported) :
    (filter_by_selector t mem data sel []).1 = Status.ok ∧
    (filter_by_selector t mem data sel []).2
      = sel.map (fun s => decode1 t mem (data.getD (s % 65536) junkRaw)) := by
  rw [filter_by_selector_spec t hsup mem data sel []]
  exact ⟨rfl, by simp [selIdx]⟩

/-- Witness for the amended C9 at an out-of-bounds index. -/
theorem filter_by_selector_no_bounds_check_witness :
    (filter_by_selector PredT.tint32 (fun _ => 0) [RawVal.num 7] [5] []).1
        = Status.ok ∧
    (filter_by_selector PredT.tint32 (fun _ => 0) [RawVal.num 7] [5] []).2
        = [5].map (fun s =>
            decode1 PredT.tint32 (fun _ => 0) ([RawVal.num 7].getD (s % 65536) junkRaw)) :=
  filter_by_selector_no_bounds_check PredT.tint32 (fun _ => 0) [RawVal.num 7]
    [5] (by decide)

/-- Claim C10: the selective-materialization entry point takes its selection
indices as 16-bit unsigned integers: a caller-side index reaches the
container reduced modulo 2 ^ 16 (so the result on any selection equals the
result on the same selection truncated to uint16), and rows at positions
65536 and beyond can never be selected (two containers agreeing below
position 65536 give identical results for every selection). -/
theorem filter_by_selector_uint16_truncation (t : PredT) (mem : Nat → Nat)
    (data data2 : List RawVal) (sel : List Nat) (res : List Cell)
    (hagree : ∀ i, i < 65536 → data.getD i junkRaw = data2.getD i junkRaw) :
    filter_by_selector t mem data sel res
        = filter_by_selector t mem data (sel.map (fun s => s % 65536)) res ∧
    filter_by_selector t mem data sel res
        = filter_by_selector t mem data2 sel res := by
  by_cases hsup : t = PredT.tunsupported
  · subst hsup
    exact ⟨rfl, rfl⟩
  · constructor
    · rw [filter_by_selector_spec t hsup mem data sel res,
        filter_by_selector_spec t hsup mem data (sel.map (fun s => s % 65536)) res]
      simp only [List.map_map, Prod.mk.injEq, true_and]
      congr 1
      apply List.map_congr_left
      intro s _
      simp only [Function.comp_apply, selIdx]
      congr 2
      omega
    · rw [filter_by_selector_spec t hsup mem data sel res,
        filter_by_selector_spec t hsup mem data2 sel res]
      simp only [Prod.mk.injEq, true_and]
      congr 1
      apply List.map_congr_left
      intro s _
      rw [hagree (selIdx s) (Nat.mod_lt s (by norm_num))]

/-- Witness for C10: index 65537 is truncated to row 1. -/
theorem filter_by_selector_uint16_truncation_witness :
    filter_by_selector PredT.tint8 (fun _ => 0)
        [RawVal.num 3, RawVal.num 4] [65537] []
      = filter_by_selector PredT.tint8 (fun _ => 0) [RawVal.num 3, RawVal.num 4]
          ([65537].map (fun s => s % 65536)) [] :=
  (filter_by_selector_uint16_truncation PredT.tint8 (fun _ => 0)
      [RawVal.num 3, RawVal.num 4] [RawVal.num 3, RawVal.num 4] [65537] []
      (fun _ _ => rfl)).1

/-- Claim C5: for every fixed-width element type, every container state and
every input byte block holding num elements, the element-wise assignment
batch append and the bulk byte-copy batch append produce byte-for-byte
identical container contents and identical sizes (shown for the byte-level
views and for the element-level container). -/
theorem insert_many_strategies_equivalent (t : PredT) (contBytes src : List Nat)
    (data : List RawVal) (num : Nat) (h : num * width t ≤ src.length) :
    insert_many_default_type_bytes (width t) contBytes src num
        = insert_many_in_copy_way_bytes (width t) contBytes src num ∧
    (insert_many_default_type_bytes (width t) contBytes src num).length
        = contBytes.length + num * width t ∧
    (insert_many_in_copy_way_bytes (width t) contBytes src num).length
        = contBytes.length + num * width t ∧
    insert_many_default_type t data src num
        = insert_many_in_copy_way t data src num := by
  have hb : insert_many_default_type_bytes (width t) contBytes src num
      = insert_many_in_copy_way_bytes (width t) contBytes src num := by
    rw [insert_many_default_type_bytes, insert_many_in_copy_way_bytes,
      takeChunks_flatten]
  have hlen : (insert_many_in_copy_way_bytes (width t) contBytes src num).length
      = contBytes.length + num * width t := by
    rw [insert_many_in_copy_way_bytes, List.length_append, List.length_take]
    omega
  refine ⟨hb, by rw [hb, hlen], hlen, ?_⟩
  rw [insert_many_default_type, insert_many_in_copy_way, takeChunks_take]

/-- Witness for C5 with two 4-byte elements. -/
theorem insert_many_strategies_equivalent_witness :
    insert_many_default_type_bytes (width PredT.tint32) [9]
        [1, 2, 3, 4, 5, 6, 7, 8] 2
      = insert_many_in_copy_way_bytes (width PredT.tint32) [9]
          [1, 2, 3, 4, 5, 6, 7, 8] 2 :=
  (insert_many_strategies_equivalent PredT.tint32 [9] [1, 2, 3, 4, 5, 6, 7, 8]
      [] 2 (by decide)).1

/-- Claim C6: insert_many_dict_data appends exactly num string descriptors,
the i-th pointing at dict_buffer + offsets[codes[start_index + i]] with
length lengths[codes[start_index + i]]; and for codes [2, 0, 1], offsets
[5, 0, 9], lengths [4, 5, 3] against a concrete dictionary buffer,
materializing the appended descriptors yields the exact substrings of the
buffer at those offsets and lengths, in order. -/
theorem insert_many_dict_data_decode :
    (∀ (data : List RawVal) (codes : List Int) (s : Nat) (offs lens : List Nat)
        (base num : Nat),
      (insert_many_dict_data data codes s offs lens base num).length
          = data.length + num ∧
      ∀ i, i < num →
        (insert_many_dict_data data codes s offs lens base num).getD
            (data.length + i) junkRaw
          = RawVal.str (base + offs.getD ((codes.getD (s + i) 0).toNat) 0)
              (lens.getD ((codes.getD (s + i) 0).toNat) 0)) ∧
    filter_by_selector PredT.tstring memExample
        (insert_many_dict_data [] [2, 0, 1] 0 [5, 0, 9] [4, 5, 3] 0 3)
        [0, 1, 2] []
      = (Status.ok,
          [Cell.cbytes ((dictBufExample.drop 9).take 3),
           Cell.cbytes ((dictBufExample.drop 5).take 4),
           Cell.cbytes (dictBufExample.take 5)]) := by
  constructor
  · intro data codes s offs lens base num
    constructor
    · simp [insert_many_dict_data]
    · intro i hi
      rw [insert_many_dict_data,
        List.getD_append_right _ _ _ _ (Nat.le_add_right data.length i)]
      have hi2 : data.length + i - data.length = i := by omega
      rw [hi2]
      have hi3 : i < ((List.range num).map (fun i =>
          RawVal.str
            (base + offs.getD ((codes.getD (s + i) 0).toNat) 0)
            (lens.getD ((codes.getD (s + i) 0).toNat) 0))).length := by
        simpa using hi
      rw [List.getD_eq_getElem _ _ hi3, List.getElem_map, List.getElem_range]
  · decide

/-- Witness for C6: the second appended descriptor of the example resolves
codeword 0 to offset 5 and length 4. -/
theorem insert_many_dict_data_decode_witness :
    (insert_many_dict_data [] [2, 0, 1] 0 [5, 0, 9] [4, 5, 3] 0 3).getD 1 junkRaw
      = RawVal.str 5 4 :=
  (insert_many_dict_data_decode.1 [] [2, 0, 1] 0 [5, 0, 9] [4, 5, 3] 0 3).2 1
    (by decide)

/-- Claim C7: 3-byte packed dates are unpacked little-endian by get_date_at
(byte 0 least significant, byte 2 most significant), decoded through the
domain date codec, and the encode-then-decode round trip through the codec
recovers the original calendar date, end to end through the materialization
path of filter_by_selector. -/
theorem date_unpack_le_roundtrip (mem : Nat → Nat) (y m d : Nat)
    (hy : y < 32768) (hm : m < 16) (hd : d < 32) :
    (∀ b0 b1 b2, b0 < 256 → b1 < 256 → b2 < 256 →
        get_date_at (RawVal.date b0 b1 b2) = b0 + 256 * b1 + 65536 * b2) ∧
    fromOlapDate (toOlapDate y m d) = (y, m, d) ∧
    filter_by_selector PredT.tuint24 mem
        [RawVal.date (toOlapDate y m d % 256) (toOlapDate y m d / 256 % 256)
            (toOlapDate y m d / 65536)] [0] []
      = (Status.ok, [Cell.cdate y m d]) := by
  have hcodec : fromOlapDate (toOlapDate y m d) = (y, m, d) := by
    simp only [fromOlapDate, toOlapDate, Prod.mk.injEq]
    refine ⟨?_, ?_, ?_⟩ <;> omega
  refine ⟨fun b0 b1 b2 h0 h1 _ => get_date_at_eq b0 b1 b2 h0 h1, hcodec, ?_⟩
  have hg : get_date_at (RawVal.date (toOlapDate y m d % 256)
      (toOlapDate y m d / 256 % 256) (toOlapDate y m d / 65536))
      = toOlapDate y m d := by
    rw [get_date_at_eq _ _ _ (by omega) (by omega)]
    have hv : toOlapDate y m d < 16777216 := by
      rw [toOlapDate]
      omega
    omega
  simp [filter_by_selector, insert_date_to_res_column, selIdx, dateConv, hg,
    hcodec]

/-- Witness for C7 at the calendar date 2023-10-11. -/
theorem date_unpack_le_roundtrip_witness :
    filter_by_selector PredT.tuint24 (fun _ => 0)
        [RawVal.date (toOlapDate 2023 10 11 % 256)
            (toOlapDate 2023 10 11 / 256 % 256) (toOlapDate 2023 10 11 / 65536)]
        [0] []
      = (Status.ok, [Cell.cdate 2023 10 11]) :=
  (date_unpack_le_roundtrip (fun _ => 0) 2023 10 11 (by decide) (by decide)
      (by decide)).2.2

/-- Claim C8: the 12-byte packed decimal splits into an 8-byte little-endian
integer part followed by a 4-byte little-endian fraction part (shown as a
round trip on every in-range field pair), materialization constructs the
DecimalV2Value from the two fields, and the pair with integer part 123 and
fraction 450000000 denotes the decimal value 123.45 under the domain
scale. -/
theorem decimal_split_decode (mem : Nat → Nat) (i f : Int)
    (hi1 : -(2 ^ 63) ≤ i) (hi2 : i < 2 ^ 63) (hf1 : -(2 ^ 31) ≤ f)
    (hf2 : f < 2 ^ 31) :
    insert_decimal_value (encodeLE 8 (ofSigned 64 i) ++ encodeLE 4 (ofSigned 32 f))
        = (i, f) ∧
    filter_by_selector PredT.tdecimal mem [RawVal.dec 123 450000000] [0] []
        = (Status.ok, [Cell.cdec (decimalV2Value 123 450000000)]) ∧
    decimalToRat (decimalV2Value 123 450000000) = 12345 / 100 := by
  refine ⟨insert_decimal_value_encode i f hi1 hi2 hf1 hf2, ?_, ?_⟩
  · simp [filter_by_selector, insert_decimal_to_res_column, selIdx, decConv]
  · norm_num [decimalToRat, decimalV2Value]

/-- Witness for C8 at the field pair of the 123.45 example. -/
theorem decimal_split_decode_witness :
    insert_decimal_value
        (encodeLE 8 (ofSigned 64 123) ++ encodeLE 4 (ofSigned 32 450000000))
      = (123, 450000000) :=
  (decimal_split_decode (fun _ => 0) 123 450000000 (by decide) (by decide)
      (by decide) (by decide)).1

theorem rawEncode_length (t : PredT) (v : RawVal) :
    (rawEncode t v).length = width t := by
  cases t <;> cases v <;>
    simp [rawEncode, width, encodeLE_length]

theorem map_const_sum (vs : List RawVal) (w : Nat) :
    (vs.map (fun _ => w)).sum = vs.length * w := by
  induction vs with
  | nil => simp
  | cons v vs ih => simp [ih]; ring

/-- Claim C2: for every fixed-width supported T, inserting N raw values via
the fixed-width batch path into an empty container recovers exactly those N
values, and materializing the full range [0, N) into a fresh empty
destination yields the decoded values of the original semantic source
values, in order. -/
theorem fixed_batch_round_trip (t : PredT) (mem : Nat → Nat) (vs : List RawVal)
    (ht1 : t ≠ PredT.tstring) (ht2 : t ≠ PredT.tunsupported)
    (hwf : ∀ v ∈ vs, wfRaw t v = true) (hN : vs.length ≤ 65536) :
    insert_many_fix_len_data t [] ((vs.map (rawEncode t)).flatten) vs.length
        = vs ∧
    filter_by_selector t mem
        (insert_many_fix_len_data t [] ((vs.map (rawEncode t)).flatten) vs.length)
        (List.range vs.length) []
      = (Status.ok, vs.map (decode1 t mem)) := by
  have hlen : ∀ l ∈ vs.map (rawEncode t), l.length = width t := by
    intro l hl
    obtain ⟨v, hv, rfl⟩ := List.mem_map.1 hl
    exact rawEncode_length t v
  have hchunks : takeChunks (width t) vs.length ((vs.map (rawEncode t)).flatten)
      = vs.map (rawEncode t) := by
    have h := takeChunks_flatten_chunks (width t) (vs.map (rawEncode t)) hlen
    rwa [List.length_map] at h
  have hmapid : (vs.map (rawEncode t)).map (bytesToRaw t) = vs := by
    rw [List.map_map]
    have hcongr : ∀ v ∈ vs, (bytesToRaw t ∘ rawEncode t) v = id v := fun v hv =>
      bytesToRaw_rawEncode t v ht1 (hwf v hv)
    rw [List.map_congr_left hcongr, List.map_id]
  have hdefault : insert_many_default_type t []
      ((vs.map (rawEncode t)).flatten) vs.length = vs := by
    rw [insert_many_default_type, hchunks, hmapid, List.nil_append]
  have hcopy : insert_many_in_copy_way t []
      ((vs.map (rawEncode t)).flatten) vs.length = vs := by
    rw [insert_many_in_copy_way, takeChunks_take, hchunks, hmapid,
      List.nil_append]
  have hcont : insert_many_fix_len_data t []
      ((vs.map (rawEncode t)).flatten) vs.length = vs := by
    cases t <;>
      first
        | exact absurd rfl ht1
        | exact hcopy
        | exact hdefault
  refine ⟨hcont, ?_⟩
  rw [hcont, filter_by_selector_spec t ht2 mem vs (List.range vs.length) [],
    List.nil_append]
  simp only [selIdx]
  rw [range_map_mod_getD vs junkRaw (decode1 t mem) hN]

/-- Witness for C2 with two 32-bit values, one negative. -/
theorem fixed_batch_round_trip_witness :
    insert_many_fix_len_data PredT.tint32 []
        (([RawVal.num 5, RawVal.num (-7)].map (rawEncode PredT.tint32)).flatten) 2
      = [RawVal.num 5, RawVal.num (-7)] :=
  (fixed_batch_round_trip PredT.tint32 (fun _ => 0)
      [RawVal.num 5, RawVal.num (-7)] (by decide) (by decide) (by decide)
      (by decide)).1

/-- Claim C4: every guarded generic operation (single-element get,
comparison, hashing, arena serialization and deserialization, generic
insert and copy, pop_back, permutation, generic filter, permute, replicate,
scatter, structural equality, raw data export, extremes, column-data
replacement) raises the unrecoverable named failure from the source for
every argument, with no successful return path: its result is always the
error value, never ok. -/
theorem guarded_operations_always_fail :
    (∀ n, get_data_at n
        = Except.error "get_data_at not supported in PredicateColumnType") ∧
    (∀ src n, insert_from src n
        = Except.error "insert_from not supported in PredicateColumnType") ∧
    (∀ src start length, insert_range_from src start length
        = Except.error "insert_range_from not supported in PredicateColumnType") ∧
    (∀ src indices, insert_indices_from src indices
        = Except.error "insert_indices_from not supported in PredicateColumnType") ∧
    (∀ n, pop_back n
        = Except.error "pop_back not supported in PredicateColumnType") ∧
    (∀ n hash, update_hash_with_value n hash
        = Except.error "update_hash_with_value not supported in PredicateColumnType") ∧
    (∀ reverse limit nanHint, get_permutation reverse limit nanHint
        = Except.error "get_permutation not supported in PredicateColumnType") ∧
    (get_family_name
        = Except.error "get_family_name not supported in PredicateColumnType") ∧
    (∀ size, clone_resized size
        = Except.error "clone_resized not supported in PredicateColumnType") ∧
    (∀ x, insert x
        = Except.error "insert not supported in PredicateColumnType") ∧
    (∀ n, opIndex n
        = Except.error "operator[] not supported in PredicateColumnType") ∧
    (∀ n res, get n res
        = Except.error "get field not supported in PredicateColumnType") ∧
    (∀ n, get64 n
        = Except.error "get field not supported in PredicateColumnTyped") ∧
    (∀ n, get_float64 n
        = Except.error "get field not supported in PredicateColumnType") ∧
    (∀ n, get_uint n
        = Except.error "get field not supported in PredicateColumnType") ∧
    (∀ n, get_bool n
        = Except.error "get field not supported in PredicateColumnType") ∧
    (∀ n, get_int n
        = Except.error "get field not supported in PredicateColumnType") ∧
    (∀ n arena beginPos, serialize_value_into_arena n arena beginPos
        = Except.error "serialize_value_into_arena not supported in PredicateColumnType") ∧
    (∀ pos, deserialize_and_insert_from_arena pos
        = Except.error "deserialize_and_insert_from_arena not supported in PredicateColumnType") ∧
    (∀ n m rhs nanHint, compare_at n m rhs nanHint
        = Except.error "compare_at not supported in PredicateColumnType") ∧
    (∀ lo hi, get_extremes lo hi
        = Except.error "get_extremes not supported in PredicateColumnType") ∧
    (get_raw_data
        = Except.error "get_raw_data not supported in PredicateColumnType") ∧
    (∀ rhs, structure_equals rhs
        = Except.error "structure_equals not supported in PredicateColumnType") ∧
    (∀ filt resultSizeHint, filter filt resultSizeHint
        = Except.error "filter not supported in PredicateColumnType") ∧
    (∀ perm limit, permute perm limit
        = Except.error "permute not supported in PredicateColumnType") ∧
    (∀ offsets, replicate offsets
        = Except.error "replicate not supported in PredicateColumnType") ∧
    (∀ numColumns selector, scatter numColumns selector
        = Except.error "scatter not supported in PredicateColumnType") ∧
    (∀ rhs row selfRow, replace_column_data rhs row selfRow
        = Except.error "should not call replace_column_data in predicate column") ∧
    (∀ selfRow, replace_column_data_default selfRow
        = Except.error "should not call replace_column_data_default in predicate column") :=
  ⟨fun _ => rfl, fun _ _ => rfl, fun _ _ _ => rfl, fun _ _ => rfl, fun _ => rfl,
   fun _ _ => rfl, fun _ _ _ => rfl, rfl, fun _ => rfl, fun _ => rfl,
   fun _ => rfl, fun _ _ => rfl, fun _ => rfl, fun _ => rfl, fun _ => rfl,
   fun _ => rfl, fun _ => rfl, fun _ _ _ => rfl, fun _ => rfl,
   fun _ _ _ _ => rfl, fun _ _ => rfl, rfl, fun _ => rfl, fun _ _ => rfl,
   fun _ _ => rfl, fun _ => rfl, fun _ _ => rfl, fun _ _ _ => rfl,
   fun _ => rfl⟩
